import Mathlib

/-!
Verification of the cleaning, splitting, filtering and aggregation layer of
the BITS-HD admissions dashboard (src/app.py). Scores are modelled as exact
rationals, raw cell contents as either a string or a null marker, and each
dataframe as a list of records. Every definition below is a direct
translation of the corresponding Python function.
-/

/-- A raw cell of the input table: either a string or a missing value.
Under the astype conversion used by clean_numeric, a missing value in an
object column surfaces as the string "None". -/
inductive RawValue where
  | str (s : String)
  | null
deriving DecidableEq

/-- The string representation that astype(str) produces for a raw cell. -/
def rawToStr : RawValue → String
  | .str s => s
  | .null => "None"

/-- Numeric value of a decimal digit character. -/
def digitVal (c : Char) : ℕ := c.toNat - '0'.toNat

/-- Value of a list of decimal digit characters read left to right. -/
def digitsToNat (ds : List Char) : ℕ :=
  ds.foldl (fun a c => 10 * a + digitVal c) 0

/-- First match of the pattern of clean_numeric (one or more digits, an
optional dot, then zero or more digits) in a character list, returned as
the integer-part digits and the fraction-part digits. Mirrors the regex
search performed by str.extract in src/app.py. -/
def extractFirstNumber : List Char → Option (List Char × List Char)
  | [] => none
  | c :: cs =>
    if c.isDigit then
      let intPart := (c :: cs).takeWhile Char.isDigit
      let rest := (c :: cs).dropWhile Char.isDigit
      match rest with
      | '.' :: rest2 => some (intPart, rest2.takeWhile Char.isDigit)
      | _ => some (intPart, [])
    else
      extractFirstNumber cs

/-- Rational value of a matched number token with integer digits ip and
fraction digits fp. -/
def tokenValue (ip fp : List Char) : ℚ :=
  (digitsToNat ip : ℚ) + (digitsToNat fp : ℚ) / (10 : ℚ) ^ fp.length

/-- clean_numeric from src/app.py: convert the cell to its string form,
extract the first decimal-number substring, parse it; missing match gives
0.0 via fillna. -/
def clean_numeric (v : RawValue) : ℚ :=
  match extractFirstNumber (rawToStr v).data with
  | none => 0
  | some (ip, fp) => tokenValue ip fp

/-- A raw survey record after the column rename: the five fields the
cleaning code touches, plus the untouched remaining columns. -/
structure RawRecord where
  gate : RawValue
  hdCore : RawValue
  hdSS : RawValue
  branch : RawValue
  campus : RawValue
  other : List (String × String)
deriving DecidableEq

/-- A normalized record as produced by load_data. -/
structure Record where
  gateScore : ℚ
  hdCore : ℚ
  hdSS : ℚ
  hdScore : ℚ
  branch : String
  campus : String
  other : List (String × String)
deriving DecidableEq

/-- Normalization of one row: numeric cleaning of the three score columns,
the HD Score column as the row-wise maximum, and trimming of the branch
and campus strings. -/
def normalizeRecord (r : RawRecord) : Record :=
  { gateScore := clean_numeric r.gate
    hdCore := clean_numeric r.hdCore
    hdSS := clean_numeric r.hdSS
    hdScore := max (clean_numeric r.hdCore) (clean_numeric r.hdSS)
    branch := (rawToStr r.branch).trim
    campus := (rawToStr r.campus).trim
    other := r.other }

/-- load_data from src/app.py, after the file read and column rename:
normalize every row. -/
def load_data (raws : List RawRecord) : List Record :=
  raws.map normalizeRecord

/-- drop_duplicates with a seen accumulator: keep the first occurrence of
each element, in input order. -/
def dropDupAux {α : Type} [DecidableEq α] : List α → List α → List α
  | _, [] => []
  | seen, x :: xs =>
    if x ∈ seen then dropDupAux seen xs else x :: dropDupAux (x :: seen) xs

/-- DataFrame.drop_duplicates: a duplicate is a row equal in all fields;
the first occurrence survives and input order is preserved. -/
def dropDuplicates {α : Type} [DecidableEq α] (l : List α) : List α :=
  dropDupAux [] l

/-- split_modes from src/app.py: the GATE subset keeps rows with a positive
GATE Score, the HD subset keeps rows with GATE Score equal to zero and a
positive HD Score; each subset then drops duplicate rows. -/
def split_modes (l : List Record) : List Record × List Record :=
  (dropDuplicates (l.filter (fun r => decide (0 < r.gateScore))),
   dropDuplicates (l.filter (fun r => decide (r.gateScore = 0) && decide (0 < r.hdScore))))

/-- The sidebar filter state read by apply_filters: the selected branch
list, the selected campus list, and the drilldown selector whose rest
position is the sentinel string used in src/app.py. -/
structure FilterConfig where
  branches : List String
  campuses : List String
  drill : String
deriving DecidableEq

/-- The sentinel value of the drilldown selectbox meaning no drilldown. -/
def allBranchesSentinel : String := "All branches"

/-- The row mask of apply_filters: branch is in the selected branches and
campus is in the selected campuses, and when the drilldown is active the
branch also equals the drilled branch. -/
def matchesFilters (cfg : FilterConfig) (r : Record) : Bool :=
  (decide (r.branch ∈ cfg.branches) && decide (r.campus ∈ cfg.campuses)) &&
    (if cfg.drill = allBranchesSentinel then true else decide (r.branch = cfg.drill))

/-- apply_filters from src/app.py: keep the rows satisfying the mask. -/
def apply_filters (cfg : FilterConfig) (l : List Record) : List Record :=
  l.filter (matchesFilters cfg)

/-- Merge of two filter configurations: intersect the branch and campus
selections and combine the drilldown choices, the first active one
winning. -/
def mergeConfigs (cfg1 cfg2 : FilterConfig) : FilterConfig :=
  { branches := cfg1.branches.filter (fun b => decide (b ∈ cfg2.branches))
    campuses := cfg1.campuses.filter (fun c => decide (c ∈ cfg2.campuses))
    drill := if cfg1.drill = allBranchesSentinel then cfg2.drill else cfg1.drill }

/-- Two configurations are compatible when their drilldown selections do
not conflict: at least one is inactive or both name the same branch. -/
def CompatibleConfigs (cfg1 cfg2 : FilterConfig) : Prop :=
  cfg1.drill = allBranchesSentinel ∨ cfg2.drill = allBranchesSentinel ∨
    cfg1.drill = cfg2.drill

/-- Round an exact rational to the nearest integer, ties to even, the
rounding rule of the Python round builtin. -/
def roundHalfEven (q : ℚ) : ℤ :=
  if q - ⌊q⌋ < 1 / 2 then ⌊q⌋
  else if 1 / 2 < q - ⌊q⌋ then ⌊q⌋ + 1
  else if ⌊q⌋ % 2 = 0 then ⌊q⌋ else ⌊q⌋ + 1

/-- format_mean from src/app.py: round to two decimal places. -/
def format_mean (q : ℚ) : ℚ := (roundHalfEven (q * 100) : ℚ) / 100

/-- Minimum of a list of scores; pandas min of a nonempty group. -/
def listMin : List ℚ → ℚ
  | [] => 0
  | x :: xs => xs.foldl min x

/-- Maximum of a list of scores; pandas max of a nonempty group. -/
def listMax : List ℚ → ℚ
  | [] => 0
  | x :: xs => xs.foldl max x

/-- Arithmetic mean of a list of scores as an exact rational. -/
def listMean (l : List ℚ) : ℚ := l.sum / (l.length : ℚ)

/-- The grouping key of the cutoff aggregation. -/
def recKey (r : Record) : String × String := (r.branch, r.campus)

/-- Ascending lexicographic order on (branch, campus) keys, the order
pandas uses for groupby keys and for sort_values on the two columns. -/
def keyLe (a b : String × String) : Prop :=
  a.1 < b.1 ∨ (a.1 = b.1 ∧ a.2 ≤ b.2)

instance : DecidableRel keyLe := fun a b => by
  unfold keyLe; infer_instance

instance : IsTotal (String × String) keyLe := by
  constructor
  intro a b
  rcases lt_trichotomy a.1 b.1 with h | h | h
  · exact Or.inl (Or.inl h)
  · rcases le_total a.2 b.2 with h2 | h2
    · exact Or.inl (Or.inr ⟨h, h2⟩)
    · exact Or.inr (Or.inr ⟨h.symm, h2⟩)
  · exact Or.inr (Or.inl h)

instance : IsTrans (String × String) keyLe := by
  constructor
  intro a b c hab hbc
  rcases hab with h1 | ⟨e1, l1⟩
  · rcases hbc with h2 | ⟨e2, _⟩
    · exact Or.inl (h1.trans h2)
    · exact Or.inl (e2 ▸ h1)
  · rcases hbc with h2 | ⟨e2, l2⟩
    · exact Or.inl (e1 ▸ h2)
    · exact Or.inr ⟨e1.trans e2, l1.trans l2⟩

/-- One row of the cutoff table: the group key and the min, max, rounded
mean and count aggregates of the score column over the group. -/
structure CutoffRow where
  branch : String
  campus : String
  min : ℚ
  max : ℚ
  mean : ℚ
  count : ℕ
deriving DecidableEq

/-- The rows of a group: the records of the subset sharing the key. -/
def groupOf (l : List Record) (k : String × String) : List Record :=
  l.filter (fun r => decide (recKey r = k))

/-- The cutoff row of one group key. -/
def mkCutoffRow (score : Record → ℚ) (l : List Record) (k : String × String) :
    CutoffRow :=
  { branch := k.1
    campus := k.2
    min := listMin ((groupOf l k).map score)
    max := listMax ((groupOf l k).map score)
    mean := format_mean (listMean ((groupOf l k).map score))
    count := (groupOf l k).length }

/-- The groupby-agg-sort pipeline of the cutoff tables in src/app.py: one
row per distinct (branch, campus) key, keys in ascending lexicographic
order, aggregating the given score column; the mean column is rounded by
format_mean as a last step. -/
def cutoffTable (score : Record → ℚ) (l : List Record) : List CutoffRow :=
  (List.insertionSort keyLe (dropDuplicates (l.map recKey))).map
    (mkCutoffRow score l)

/-- gate_cutoff from src/app.py, as a function of the filtered subset. -/
def gate_cutoff (l : List Record) : List CutoffRow :=
  cutoffTable (fun r => r.gateScore) l

/-- hd_cutoff from src/app.py, as a function of the filtered subset. -/
def hd_cutoff (l : List Record) : List CutoffRow :=
  cutoffTable (fun r => r.hdScore) l

/-- Ascending order on branch mean rows by the mean value, the order of
sort_values on the score column. -/
def meanLe (a b : String × ℚ) : Prop := a.2 ≤ b.2

instance : DecidableRel meanLe := fun a b => by
  unfold meanLe; infer_instance

instance : IsTotal (String × ℚ) meanLe := ⟨fun a b => le_total a.2 b.2⟩

instance : IsTrans (String × ℚ) meanLe := ⟨fun _ _ _ h1 h2 => h1.trans h2⟩

/-- Ascending order on branch keys, the groupby key order. -/
def branchLe (a b : String × ℕ) : Prop := a.1 ≤ b.1

instance : DecidableRel branchLe := fun a b => by
  unfold branchLe; infer_instance

instance : IsTotal (String × ℕ) branchLe := ⟨fun a b => le_total a.1 b.1⟩

instance : IsTrans (String × ℕ) branchLe := ⟨fun _ _ _ h1 h2 => h1.trans h2⟩

/-- The branch mean table of src/app.py: per-branch rounded mean of the
score column, sorted ascending by the rounded mean. -/
def branchMeanTable (score : Record → ℚ) (l : List Record) :
    List (String × ℚ) :=
  List.insertionSort meanLe
    ((List.insertionSort (fun a b : String => a ≤ b)
        (dropDuplicates (l.map (fun r => r.branch)))).map
      (fun b =>
        (b, format_mean (listMean ((l.filter (fun r => decide (r.branch = b))).map score)))))

/-- The campus-by-branch size table of src/app.py: entry counts per
(campus, branch) key, keys ascending. -/
def campusBranchCounts (l : List Record) : List (String × String × ℕ) :=
  (List.insertionSort keyLe
      (dropDuplicates (l.map (fun r => (r.campus, r.branch))))).map
    (fun k => (k.1, k.2, (l.filter (fun r => decide ((r.campus, r.branch) = k))).length))

/-- The branch size table of src/app.py: entry counts per branch key,
keys ascending. -/
def branchCounts (l : List Record) : List (String × ℕ) :=
  (List.insertionSort (fun a b : String => a ≤ b)
      (dropDuplicates (l.map (fun r => r.branch)))).map
    (fun b => (b, (l.filter (fun r => decide (r.branch = b))).length))

/-- Truncation toward zero, the conversion the int builtin applies to the
max and min metrics. -/
def pythonInt (q : ℚ) : ℤ := q.num / q.den

/-- The four summary metrics at the top of a mode tab. -/
structure TabMetrics where
  total : ℕ
  avg : ℚ
  highest : ℤ
  lowest : ℤ
deriving DecidableEq

/-- What a mode tab renders: either the informational empty-state message
alone, or the metrics, cutoff table and chart tables. -/
inductive TabView where
  | noData (msg : String)
  | charts (metrics : TabMetrics) (cutoff : List CutoffRow)
      (branchMeans : List (String × ℚ))
      (campusBranch : List (String × String × ℕ))
      (branchShare : List (String × ℕ))
deriving DecidableEq

/-- The GATE tab of src/app.py: filter the GATE subset; when nothing is
left render the informational message, otherwise compute the metrics and
the aggregate tables from the filtered subset. -/
def tab_gate (gateDf : List Record) (cfg : FilterConfig) : TabView :=
  let gated := apply_filters cfg gateDf
  if gated = [] then
    TabView.noData "No GATE admissions match the current filters."
  else
    TabView.charts
      { total := gated.length
        avg := format_mean (listMean (gated.map (fun r => r.gateScore)))
        highest := pythonInt (listMax (gated.map (fun r => r.gateScore)))
        lowest := pythonInt (listMin (gated.map (fun r => r.gateScore))) }
      (gate_cutoff gated)
      (branchMeanTable (fun r => r.gateScore) gated)
      (campusBranchCounts gated)
      (branchCounts gated)

/-- The configured path of the input data file in src/app.py. -/
def DATA_PATH : String := "bits_hd_2024_clean.json"

/-- Outcome of running the script top level: either halted at the missing
file check, or the rendered dashboard state built from the loaded data. -/
inductive AppOutcome where
  | halted (errorMsg : String)
  | rendered (df : List Record) (gateDf hdDf : List Record)
deriving DecidableEq

/-- The top of src/app.py: when the data file is missing, report the error
and stop before loading anything; otherwise load, normalize and split. -/
def runApp (fileExists : Bool) (raw : List RawRecord) : AppOutcome :=
  if fileExists then
    let df := load_data raw
    let parts := split_modes df
    AppOutcome.rendered df parts.1 parts.2
  else
    AppOutcome.halted ("Data file not found: " ++ DATA_PATH)

/-! ### Helper lemmas on deduplication -/

theorem mem_dropDupAux {α : Type} [DecidableEq α] (l : List α) :
    ∀ (seen : List α) (a : α), a ∈ dropDupAux seen l ↔ a ∈ l ∧ a ∉ seen := by
  induction l with
  | nil => intro seen a; simp [dropDupAux]
  | cons x xs ih =>
    intro seen a
    by_cases hx : x ∈ seen
    · simp only [dropDupAux, if_pos hx, ih]
      constructor
      · rintro ⟨h1, h2⟩
        exact ⟨List.mem_cons_of_mem _ h1, h2⟩
      · rintro ⟨h1, h2⟩
        rcases List.mem_cons.mp h1 with rfl | h1
        · exact absurd hx h2
        · exact ⟨h1, h2⟩
    · simp only [dropDupAux, if_neg hx, List.mem_cons, ih]
      constructor
      · rintro (rfl | ⟨h1, h2⟩)
        · exact ⟨Or.inl rfl, hx⟩
        · exact ⟨Or.inr h1, fun hs => h2 (Or.inr hs)⟩
      · rintro ⟨rfl | h1, h2⟩
        · exact Or.inl rfl
        · by_cases ha : a = x
          · exact Or.inl ha
          · exact Or.inr ⟨h1, fun hs => hs.elim ha h2⟩

theorem nodup_dropDupAux {α : Type} [DecidableEq α] (l : List α) :
    ∀ seen : List α, (dropDupAux seen l).Nodup := by
  induction l with
  | nil => intro seen; simp [dropDupAux]
  | cons x xs ih =>
    intro seen
    by_cases hx : x ∈ seen
    · simpa [dropDupAux, if_pos hx] using ih seen
    · simp only [dropDupAux, if_neg hx, List.nodup_cons]
      refine ⟨fun hmem => ?_, ih (x :: seen)⟩
      exact ((mem_dropDupAux xs (x :: seen) x).mp hmem).2 (List.mem_cons_self x seen)

theorem dropDupAux_sublist {α : Type} [DecidableEq α] (l : List α) :
    ∀ seen : List α, List.Sublist (dropDupAux seen l) l := by
  induction l with
  | nil => intro seen; simp [dropDupAux]
  | cons x xs ih =>
    intro seen
    by_cases hx : x ∈ seen
    · simpa [dropDupAux, if_pos hx] using (ih seen).trans (List.sublist_cons_self x xs)
    · simpa [dropDupAux, if_neg hx] using List.Sublist.cons₂ x (ih (x :: seen))

theorem mem_dropDuplicates {α : Type} [DecidableEq α] (l : List α) (a : α) :
    a ∈ dropDuplicates l ↔ a ∈ l := by
  simp [dropDuplicates, mem_dropDupAux]

theorem nodup_dropDuplicates {α : Type} [DecidableEq α] (l : List α) :
    (dropDuplicates l).Nodup := nodup_dropDupAux l []

theorem dropDuplicates_sublist {α : Type} [DecidableEq α] (l : List α) :
    List.Sublist (dropDuplicates l) l := dropDupAux_sublist l []

/-! ### Helper lemmas on numeric extraction -/

theorem tokenValue_nonneg (ip fp : List Char) : 0 ≤ tokenValue ip fp := by
  unfold tokenValue
  positivity

theorem extractFirstNumber_eq_none (l : List Char)
    (h : ∀ c ∈ l, ¬ c.isDigit) : extractFirstNumber l = none := by
  induction l with
  | nil => rfl
  | cons c cs ih =>
    have hc : c.isDigit = false := by
      simpa using h c (List.mem_cons_self c cs)
    simp only [extractFirstNumber, hc, Bool.false_eq_true, if_false]
    exact ih (fun d hd => h d (List.mem_cons_of_mem _ hd))

theorem clean_numeric_nonneg (v : RawValue) : 0 ≤ clean_numeric v := by
  unfold clean_numeric
  rcases hE : extractFirstNumber (rawToStr v).data with _ | ⟨ip, fp⟩
  · simp
  · simpa using tokenValue_nonneg ip fp

theorem clean_numeric_of_no_digit (s : String)
    (h : ∀ c ∈ s.data, ¬ c.isDigit) : clean_numeric (RawValue.str s) = 0 := by
  unfold clean_numeric
  rw [show rawToStr (RawValue.str s) = s from rfl, extractFirstNumber_eq_none s.data h]

/-! ### Claim C1: numeric parsing -/

/-- C1: clean_numeric extracts the first decimal-number substring of the
string form of a field and parses it; with no such substring the result
is 0.0; hence the result is always nonnegative, the input
"55.5 (General)" parses to 55.5, and the input "0" parses to 0.0. -/
theorem C1_clean_numeric_extraction :
    (∀ v : RawValue, 0 ≤ clean_numeric v) ∧
    (∀ s : String, (∀ c ∈ s.data, ¬ c.isDigit) → clean_numeric (RawValue.str s) = 0) ∧
    clean_numeric (RawValue.str "55.5 (General)") = 55.5 ∧
    clean_numeric (RawValue.str "0") = 0 := by
  refine ⟨clean_numeric_nonneg, clean_numeric_of_no_digit, ?_, ?_⟩
  · have h1 : extractFirstNumber (rawToStr (RawValue.str "55.5 (General)")).data =
        some (['5', '5'], ['5']) := rfl
    have h2 : digitsToNat ['5', '5'] = 55 := rfl
    have h3 : digitsToNat ['5'] = 5 := rfl
    unfold clean_numeric
    rw [h1]
    simp only [tokenValue, h2, h3, List.length_singleton]
    norm_num
  · have h1 : extractFirstNumber (rawToStr (RawValue.str "0")).data = some (['0'], []) := rfl
    unfold clean_numeric
    rw [h1]
    simp [tokenValue, show digitsToNat ['0'] = 0 from rfl, show digitsToNat [] = 0 from rfl]

/-- Witness for C1 at a concrete digit-free input. -/
theorem C1_witness :
    (0 : ℚ) ≤ clean_numeric (RawValue.str "xyz") ∧
    (∀ c ∈ ("xyz" : String).data, ¬ c.isDigit) ∧
    clean_numeric (RawValue.str "xyz") = 0 :=
  ⟨C1_clean_numeric_extraction.1 (RawValue.str "xyz"), by decide,
   C1_clean_numeric_extraction.2.1 "xyz" (by decide)⟩

/-! ### Claim C2: the derived hdScore -/

/-- C2: every record produced by load_data has its hdScore equal to the
maximum of its parsed hdCore and hdSS values. -/
theorem C2_hdScore_is_max (raws : List RawRecord) :
    ∀ r ∈ load_data raws, r.hdScore = max r.hdCore r.hdSS := by
  intro r hr
  rcases List.mem_map.mp hr with ⟨a, _, rfl⟩
  rfl

/-- An example raw row used by the concrete witnesses. -/
def exRaw : RawRecord :=
  { gate := RawValue.str "55.5 (General)"
    hdCore := RawValue.str "120"
    hdSS := RawValue.null
    branch := RawValue.str " Computer Science "
    campus := RawValue.str "Pilani"
    other := [] }

/-- Witness for C2 at a concrete loaded row. -/
theorem C2_witness :
    normalizeRecord exRaw ∈ load_data [exRaw] ∧
    (normalizeRecord exRaw).hdScore =
      max (normalizeRecord exRaw).hdCore (normalizeRecord exRaw).hdSS :=
  ⟨List.mem_singleton.mpr rfl,
   C2_hdScore_is_max [exRaw] (normalizeRecord exRaw) (List.mem_singleton.mpr rfl)⟩

/-! ### Claim C10: missing raw values -/

/-- C10: a missing raw value parses to 0.0, exactly as a digit-free
string does; the two are indistinguishable after normalization. -/
theorem C10_null_matches_unparseable :
    clean_numeric RawValue.null = 0 ∧
    ∀ s : String, (∀ c ∈ s.data, ¬ c.isDigit) →
      clean_numeric (RawValue.str s) = clean_numeric RawValue.null := by
  have hnull : clean_numeric RawValue.null = 0 := by
    have h1 : extractFirstNumber (rawToStr RawValue.null).data = none := rfl
    unfold clean_numeric
    rw [h1]
  exact ⟨hnull, fun s hs => (clean_numeric_of_no_digit s hs).trans hnull.symm⟩

/-- Witness for C10 at a concrete digit-free input. -/
theorem C10_witness :
    (∀ c ∈ ("N/A" : String).data, ¬ c.isDigit) ∧
    clean_numeric (RawValue.str "N/A") = clean_numeric RawValue.null :=
  ⟨by decide, C10_null_matches_unparseable.2 "N/A" (by decide)⟩

/-! ### Claim C9: missing data file -/

/-- C9: when the data file does not exist the script reports the error
and halts; no dashboard state is produced from any raw data. -/
theorem C9_missing_file_halts (raw : List RawRecord) :
    runApp false raw = AppOutcome.halted ("Data file not found: " ++ DATA_PATH) ∧
    ∀ df gateDf hdDf, runApp false raw ≠ AppOutcome.rendered df gateDf hdDf := by
  constructor
  · rfl
  · intro df gateDf hdDf hcontra
    simp [runApp] at hcontra

/-- Witness for C9 at the empty raw input. -/
theorem C9_witness :
    runApp false [] = AppOutcome.halted ("Data file not found: " ++ DATA_PATH) ∧
    runApp false [] ≠ AppOutcome.rendered [] [] [] :=
  ⟨(C9_missing_file_halts []).1, (C9_missing_file_halts []).2 [] [] []⟩

/-! ### Claim C3: the mode splitter -/

/-- C3: split_modes returns as GATE subset exactly the records with a
positive gateScore and as HD subset exactly the records with gateScore
zero and positive hdScore, with duplicate rows (equal in every field)
removed; each subset is a sublist of the input, so the survivors keep
their relative input order. -/
theorem C3_split_modes_spec (l : List Record) :
    (∀ r, r ∈ (split_modes l).1 ↔ r ∈ l ∧ 0 < r.gateScore) ∧
    (∀ r, r ∈ (split_modes l).2 ↔ r ∈ l ∧ r.gateScore = 0 ∧ 0 < r.hdScore) ∧
    (split_modes l).1.Nodup ∧ (split_modes l).2.Nodup ∧
    List.Sublist (split_modes l).1 l ∧ List.Sublist (split_modes l).2 l := by
  refine ⟨fun r => ?_, fun r => ?_, nodup_dropDuplicates _, nodup_dropDuplicates _,
    (dropDuplicates_sublist _).trans (List.filter_sublist l),
    (dropDuplicates_sublist _).trans (List.filter_sublist l)⟩
  · rw [show (split_modes l).1 = dropDuplicates (l.filter (fun r => decide (0 < r.gateScore)))
        from rfl, mem_dropDuplicates, List.mem_filter]
    simp
  · rw [show (split_modes l).2 = dropDuplicates
        (l.filter (fun r => decide (r.gateScore = 0) && decide (0 < r.hdScore)))
        from rfl, mem_dropDuplicates, List.mem_filter]
    simp

/-- An example record with a positive GATE score. -/
def exGateRec : Record :=
  { gateScore := 55.5, hdCore := 0, hdSS := 0, hdScore := 0,
    branch := "CS", campus := "Pilani", other := [] }

/-- An example record admitted through the HD test. -/
def exHdRec : Record :=
  { gateScore := 0, hdCore := 120, hdSS := 90, hdScore := 120,
    branch := "CS", campus := "Goa", other := [] }

/-- An example record with both scores zero. -/
def exZeroRec : Record :=
  { gateScore := 0, hdCore := 0, hdSS := 0, hdScore := 0,
    branch := "Civil", campus := "", other := [] }

/-- Witness for C3 at a concrete input list with a duplicate row. -/
theorem C3_witness :
    (exGateRec ∈ (split_modes [exGateRec, exHdRec, exGateRec, exZeroRec]).1 ↔
      exGateRec ∈ [exGateRec, exHdRec, exGateRec, exZeroRec] ∧ 0 < exGateRec.gateScore) ∧
    (split_modes [exGateRec, exHdRec, exGateRec, exZeroRec]).1.Nodup :=
  ⟨(C3_split_modes_spec [exGateRec, exHdRec, exGateRec, exZeroRec]).1 exGateRec,
   (C3_split_modes_spec [exGateRec, exHdRec, exGateRec, exZeroRec]).2.2.1⟩

/-! ### Claim C4: the subsets are disjoint -/

/-- C4: no record is in both subsets returned by split_modes; a record in
either subset satisfies exactly one of the two mode predicates; a record
with both scores zero is in neither subset. -/
theorem C4_split_modes_disjoint (l : List Record) (r : Record) :
    (r ∈ (split_modes l).1 → r ∈ (split_modes l).2 → False) ∧
    (r ∈ (split_modes l).1 ∨ r ∈ (split_modes l).2 →
      (0 < r.gateScore ∧ ¬(r.gateScore = 0 ∧ 0 < r.hdScore)) ∨
      (¬(0 < r.gateScore) ∧ (r.gateScore = 0 ∧ 0 < r.hdScore))) ∧
    (r.gateScore = 0 → r.hdScore = 0 →
      r ∉ (split_modes l).1 ∧ r ∉ (split_modes l).2) := by
  have hg : r ∈ (split_modes l).1 ↔ r ∈ l ∧ 0 < r.gateScore := by
    rw [show (split_modes l).1 = dropDuplicates (l.filter (fun r => decide (0 < r.gateScore)))
        from rfl, mem_dropDuplicates, List.mem_filter]
    simp
  have hh : r ∈ (split_modes l).2 ↔ r ∈ l ∧ r.gateScore = 0 ∧ 0 < r.hdScore := by
    rw [show (split_modes l).2 = dropDuplicates
        (l.filter (fun r => decide (r.gateScore = 0) && decide (0 < r.hdScore)))
        from rfl, mem_dropDuplicates, List.mem_filter]
    simp
  refine ⟨fun h1 h2 => ?_, fun h12 => ?_, fun hz1 hz2 => ⟨fun h1 => ?_, fun h2 => ?_⟩⟩
  · have a1 := (hg.mp h1).2
    have a2 := (hh.mp h2).2.1
    rw [a2] at a1
    exact lt_irrefl 0 a1
  · rcases h12 with h1 | h2
    · have a1 := (hg.mp h1).2
      refine Or.inl ⟨a1, ?_⟩
      rintro ⟨e, _⟩
      rw [e] at a1
      exact lt_irrefl 0 a1
    · have a2 := (hh.mp h2).2
      refine Or.inr ⟨fun hpos => ?_, a2⟩
      rw [a2.1] at hpos
      exact lt_irrefl 0 hpos
  · have a1 := (hg.mp h1).2
    rw [hz1] at a1
    exact lt_irrefl 0 a1
  · have a2 := (hh.mp h2).2.2
    rw [hz2] at a2
    exact lt_irrefl 0 a2

/-- Witness for C4 at a concrete record and input list. -/
theorem C4_witness :
    (exZeroRec.gateScore = 0 → exZeroRec.hdScore = 0 →
      exZeroRec ∉ (split_modes [exGateRec, exHdRec, exZeroRec]).1 ∧
      exZeroRec ∉ (split_modes [exGateRec, exHdRec, exZeroRec]).2) ∧
    exZeroRec.gateScore = 0 ∧ exZeroRec.hdScore = 0 :=
  ⟨(C4_split_modes_disjoint [exGateRec, exHdRec, exZeroRec] exZeroRec).2.2, rfl, rfl⟩

/-! ### Claim C5: the filter engine -/

/-- C5: apply_filters keeps a record exactly when its branch is selected,
its campus is selected, and, when the drilldown is active, its branch is
the drilled one; an empty branch or campus selection leaves no record. -/
theorem C5_apply_filters_spec (cfg : FilterConfig) (l : List Record) :
    (∀ r, r ∈ apply_filters cfg l ↔
      r ∈ l ∧ r.branch ∈ cfg.branches ∧ r.campus ∈ cfg.campuses ∧
        (cfg.drill ≠ allBranchesSentinel → r.branch = cfg.drill)) ∧
    (cfg.branches = [] → apply_filters cfg l = []) ∧
    (cfg.campuses = [] → apply_filters cfg l = []) := by
  refine ⟨fun r => ?_, fun hb => ?_, fun hc => ?_⟩
  · by_cases hd : cfg.drill = allBranchesSentinel
    · simp [apply_filters, List.mem_filter, matchesFilters, hd, and_assoc]
    · simp [apply_filters, List.mem_filter, matchesFilters, hd, and_assoc]
  · refine List.filter_eq_nil_iff.mpr (fun r _ => ?_)
    simp [matchesFilters, hb]
  · refine List.filter_eq_nil_iff.mpr (fun r _ => ?_)
    simp [matchesFilters, hc]

/-- An example filter configuration with an inactive drilldown. -/
def exCfg1 : FilterConfig :=
  { branches := ["CS", "Civil"], campuses := ["Pilani", "Goa"], drill := "All branches" }

/-- An example filter configuration with an active drilldown. -/
def exCfg2 : FilterConfig :=
  { branches := ["CS"], campuses := ["Pilani", "Goa", "Hyderabad"], drill := "CS" }

/-- An example filter configuration with no selected branch. -/
def exCfgEmpty : FilterConfig :=
  { branches := [], campuses := ["Pilani"], drill := "All branches" }

/-- Witness for C5 at a concrete configuration and input list. -/
theorem C5_witness :
    (exGateRec ∈ apply_filters exCfg1 [exGateRec, exHdRec] ↔
      exGateRec ∈ [exGateRec, exHdRec] ∧ exGateRec.branch ∈ exCfg1.branches ∧
      exGateRec.campus ∈ exCfg1.campuses ∧
        (exCfg1.drill ≠ allBranchesSentinel → exGateRec.branch = exCfg1.drill)) ∧
    exCfgEmpty.branches = [] ∧
    apply_filters exCfgEmpty [exGateRec, exHdRec] = [] :=
  ⟨(C5_apply_filters_spec exCfg1 [exGateRec, exHdRec]).1 exGateRec, rfl,
   (C5_apply_filters_spec exCfgEmpty [exGateRec, exHdRec]).2.1 rfl⟩

/-! ### Claim C6: filter composition -/

theorem bool_eq_of_true_iff {a b : Bool} (h : a = true ↔ b = true) : a = b := by
  cases a <;> cases b <;> simp_all

/-- The mask of apply_filters as a proposition. -/
theorem matchesFilters_true_iff (cfg : FilterConfig) (r : Record) :
    matchesFilters cfg r = true ↔
      r.branch ∈ cfg.branches ∧ r.campus ∈ cfg.campuses ∧
        (cfg.drill ≠ allBranchesSentinel → r.branch = cfg.drill) := by
  unfold matchesFilters
  by_cases hd : cfg.drill = allBranchesSentinel <;> simp [hd, and_assoc]

theorem matchesFilters_merge (cfg1 cfg2 : FilterConfig)
    (hc : CompatibleConfigs cfg1 cfg2) (r : Record) :
    (matchesFilters cfg2 r && matchesFilters cfg1 r) =
      matchesFilters (mergeConfigs cfg1 cfg2) r := by
  apply bool_eq_of_true_iff
  rw [Bool.and_eq_true, matchesFilters_true_iff, matchesFilters_true_iff,
    matchesFilters_true_iff]
  have hbm : r.branch ∈ (mergeConfigs cfg1 cfg2).branches ↔
      r.branch ∈ cfg1.branches ∧ r.branch ∈ cfg2.branches := by
    simp [mergeConfigs, List.mem_filter]
  have hcm : r.campus ∈ (mergeConfigs cfg1 cfg2).campuses ↔
      r.campus ∈ cfg1.campuses ∧ r.campus ∈ cfg2.campuses := by
    simp [mergeConfigs, List.mem_filter]
  have hdm : ((mergeConfigs cfg1 cfg2).drill ≠ allBranchesSentinel →
        r.branch = (mergeConfigs cfg1 cfg2).drill) ↔
      ((cfg2.drill ≠ allBranchesSentinel → r.branch = cfg2.drill) ∧
        (cfg1.drill ≠ allBranchesSentinel → r.branch = cfg1.drill)) := by
    show ((if cfg1.drill = allBranchesSentinel then cfg2.drill else cfg1.drill) ≠
        allBranchesSentinel →
          r.branch = (if cfg1.drill = allBranchesSentinel then cfg2.drill else cfg1.drill)) ↔ _
    by_cases h1 : cfg1.drill = allBranchesSentinel
    · simp [h1]
    · by_cases h2 : cfg2.drill = allBranchesSentinel
      · simp [if_neg h1, h1, h2]
      · have h2eq : cfg1.drill = cfg2.drill := by
          rcases hc with h | h | h
          · exact absurd h h1
          · exact absurd h h2
          · exact h
        simp only [if_neg h1]
        rw [h2eq] at h1 ⊢
        simp [h1, and_self_iff]
  rw [hbm, hcm, hdm]
  tauto

/-- C6: filtering twice with two compatible configurations equals
filtering once with the merged configuration, where merging intersects
the branch and campus selections and combines the drilldown choices. -/
theorem C6_filter_composition (cfg1 cfg2 : FilterConfig) (l : List Record)
    (hc : CompatibleConfigs cfg1 cfg2) :
    apply_filters cfg2 (apply_filters cfg1 l) =
      apply_filters (mergeConfigs cfg1 cfg2) l := by
  unfold apply_filters
  rw [List.filter_filter]
  exact List.filter_congr (fun r _ => matchesFilters_merge cfg1 cfg2 hc r)

/-- Witness for C6 at concrete compatible configurations. -/
theorem C6_witness :
    CompatibleConfigs exCfg1 exCfg2 ∧
    apply_filters exCfg2 (apply_filters exCfg1 [exGateRec, exHdRec, exZeroRec]) =
      apply_filters (mergeConfigs exCfg1 exCfg2) [exGateRec, exHdRec, exZeroRec] :=
  ⟨Or.inl rfl, C6_filter_composition exCfg1 exCfg2 [exGateRec, exHdRec, exZeroRec] (Or.inl rfl)⟩

/-! ### Helper lemmas on list minima and maxima -/

theorem foldl_min_le_init (xs : List ℚ) : ∀ a : ℚ, xs.foldl min a ≤ a := by
  induction xs with
  | nil => intro a; simp
  | cons x xs ih =>
    intro a
    simpa using (ih (min a x)).trans (min_le_left a x)

theorem foldl_min_le_mem (xs : List ℚ) : ∀ a y, y ∈ xs → xs.foldl min a ≤ y := by
  induction xs with
  | nil => intro a y hy; simp at hy
  | cons x xs ih =>
    intro a y hy
    rcases List.mem_cons.mp hy with rfl | hy
    · simpa using (foldl_min_le_init xs (min a y)).trans (min_le_right a y)
    · simpa using ih (min a x) y hy

theorem foldl_min_mem (xs : List ℚ) : ∀ a, xs.foldl min a = a ∨ xs.foldl min a ∈ xs := by
  induction xs with
  | nil => intro a; simp
  | cons x xs ih =>
    intro a
    rcases ih (min a x) with h | h
    · rcases le_total a x with hax | hax
      · left
        simpa [min_eq_left hax] using h
      · right
        rw [List.mem_cons]
        left
        simpa [min_eq_right hax] using h
    · right
      simpa using List.mem_cons_of_mem x h

theorem init_le_foldl_max (xs : List ℚ) : ∀ a : ℚ, a ≤ xs.foldl max a := by
  induction xs with
  | nil => intro a; simp
  | cons x xs ih =>
    intro a
    simpa using (le_max_left a x).trans (ih (max a x))

theorem mem_le_foldl_max (xs : List ℚ) : ∀ a y, y ∈ xs → y ≤ xs.foldl max a := by
  induction xs with
  | nil => intro a y hy; simp at hy
  | cons x xs ih =>
    intro a y hy
    rcases List.mem_cons.mp hy with rfl | hy
    · simpa using (le_max_right a y).trans (init_le_foldl_max xs (max a y))
    · simpa using ih (max a x) y hy

theorem foldl_max_mem (xs : List ℚ) : ∀ a, xs.foldl max a = a ∨ xs.foldl max a ∈ xs := by
  induction xs with
  | nil => intro a; simp
  | cons x xs ih =>
    intro a
    rcases ih (max a x) with h | h
    · rcases le_total a x with hax | hax
      · right
        rw [List.mem_cons]
        left
        simpa [max_eq_right hax] using h
      · left
        simpa [max_eq_left hax] using h
    · right
      simpa using List.mem_cons_of_mem x h

theorem listMin_mem (l : List ℚ) (h : l ≠ []) : listMin l ∈ l := by
  match l, h with
  | x :: xs, _ =>
    rcases foldl_min_mem xs x with h1 | h1
    · rw [List.mem_cons]
      left
      simpa [listMin] using h1
    · exact List.mem_cons_of_mem x (by simpa [listMin] using h1)

theorem listMin_le (l : List ℚ) (y : ℚ) (hy : y ∈ l) : listMin l ≤ y := by
  match l, hy with
  | x :: xs, hy =>
    rcases List.mem_cons.mp hy with rfl | hy
    · simpa [listMin] using foldl_min_le_init xs y
    · simpa [listMin] using foldl_min_le_mem xs x y hy

theorem listMax_mem (l : List ℚ) (h : l ≠ []) : listMax l ∈ l := by
  match l, h with
  | x :: xs, _ =>
    rcases foldl_max_mem xs x with h1 | h1
    · rw [List.mem_cons]
      left
      simpa [listMax] using h1
    · exact List.mem_cons_of_mem x (by simpa [listMax] using h1)

theorem le_listMax (l : List ℚ) (y : ℚ) (hy : y ∈ l) : y ≤ listMax l := by
  match l, hy with
  | x :: xs, hy =>
    rcases List.mem_cons.mp hy with rfl | hy
    · simpa [listMax] using init_le_foldl_max xs y
    · simpa [listMax] using mem_le_foldl_max xs x y hy

/-! ### Helper lemmas on the cutoff pipeline -/

theorem cutoffTable_keys (score : Record → ℚ) (l : List Record) :
    (cutoffTable score l).map (fun row => (row.branch, row.campus)) =
      List.insertionSort keyLe (dropDuplicates (l.map recKey)) := by
  unfold cutoffTable
  rw [List.map_map]
  have : ((fun row : CutoffRow => (row.branch, row.campus)) ∘ mkCutoffRow score l) =
      fun k : String × String => k := by
    funext k
    simp [mkCutoffRow]
  rw [this]
  exact List.map_id _

theorem mem_cutoffTable (score : Record → ℚ) (l : List Record) (row : CutoffRow)
    (h : row ∈ cutoffTable score l) :
    ∃ k, k ∈ l.map recKey ∧ row = mkCutoffRow score l k := by
  rcases List.mem_map.mp h with ⟨k, hk, rfl⟩
  refine ⟨k, ?_, rfl⟩
  rw [← mem_dropDuplicates]
  exact (List.perm_insertionSort keyLe _).mem_iff.mp hk

theorem groupOf_ne_nil (l : List Record) (k : String × String)
    (hk : k ∈ l.map recKey) : groupOf l k ≠ [] := by
  rcases List.mem_map.mp hk with ⟨r, hr, rfl⟩
  have : r ∈ groupOf l (recKey r) := by
    rw [groupOf, List.mem_filter]
    exact ⟨hr, by simp⟩
  exact List.ne_nil_of_mem this

/-! ### Claim C7: the cutoff aggregation -/

/-- C7: on a nonempty filtered subset, gate_cutoff emits rows whose
(branch, campus) keys are exactly the keys present in the subset, without
repetition and in ascending lexicographic order, and each row carries the
minimum, the maximum, the count, and the rounded exact arithmetic mean of
the GATE scores of its group. -/
theorem C7_gate_cutoff_spec (l : List Record) (_hne : l ≠ []) :
    List.Sorted keyLe ((gate_cutoff l).map (fun row => (row.branch, row.campus))) ∧
    ((gate_cutoff l).map (fun row => (row.branch, row.campus))).Nodup ∧
    (∀ k, k ∈ (gate_cutoff l).map (fun row => (row.branch, row.campus)) ↔
      k ∈ l.map recKey) ∧
    ∀ row ∈ gate_cutoff l,
      groupOf l (row.branch, row.campus) ≠ [] ∧
      row.count = (groupOf l (row.branch, row.campus)).length ∧
      row.min ∈ (groupOf l (row.branch, row.campus)).map (fun r => r.gateScore) ∧
      (∀ y ∈ (groupOf l (row.branch, row.campus)).map (fun r => r.gateScore),
        row.min ≤ y) ∧
      row.max ∈ (groupOf l (row.branch, row.campus)).map (fun r => r.gateScore) ∧
      (∀ y ∈ (groupOf l (row.branch, row.campus)).map (fun r => r.gateScore),
        y ≤ row.max) ∧
      row.mean = format_mean
        (((groupOf l (row.branch, row.campus)).map (fun r => r.gateScore)).sum /
          ((((groupOf l (row.branch, row.campus)).map (fun r => r.gateScore)).length : ℕ) : ℚ)) := by
  unfold gate_cutoff
  refine ⟨?_, ?_, ?_, ?_⟩
  · rw [cutoffTable_keys]
    exact List.sorted_insertionSort keyLe _
  · rw [cutoffTable_keys]
    exact ((List.perm_insertionSort keyLe _).nodup_iff).mpr (nodup_dropDuplicates _)
  · intro k
    rw [cutoffTable_keys, (List.perm_insertionSort keyLe _).mem_iff, mem_dropDuplicates]
  · intro row hrow
    rcases mem_cutoffTable _ l row hrow with ⟨k, hk, rfl⟩
    have hkey : ((mkCutoffRow (fun r => r.gateScore) l k).branch,
        (mkCutoffRow (fun r => r.gateScore) l k).campus) = k := rfl
    rw [hkey]
    have hgne : groupOf l k ≠ [] := groupOf_ne_nil l k hk
    have hsne : (groupOf l k).map (fun r => r.gateScore) ≠ [] := by
      intro hcon
      exact hgne (List.map_eq_nil_iff.mp hcon)
    refine ⟨hgne, rfl, listMin_mem _ hsne, fun y hy => listMin_le _ y hy,
      listMax_mem _ hsne, fun y hy => le_listMax _ y hy, ?_⟩
    show format_mean (listMean ((groupOf l k).map (fun r => r.gateScore))) = _
    rw [listMean]

/-- Example cutoff rows: two GATE entries for (CS, Pilani), one for
(CS, Goa). -/
def exRow1 : Record := ⟨70, 0, 0, 0, "CS", "Pilani", []⟩

/-- Second example row of the (CS, Pilani) group. -/
def exRow2 : Record := ⟨80, 0, 0, 0, "CS", "Pilani", []⟩

/-- Example row of the (CS, Goa) group. -/
def exRow3 : Record := ⟨60, 0, 0, 0, "CS", "Goa", []⟩

/-- Witness for C7 at the concrete three-row subset. -/
theorem C7_witness :
    ([exRow1, exRow2, exRow3] : List Record) ≠ [] ∧
    List.Sorted keyLe ((gate_cutoff [exRow1, exRow2, exRow3]).map
      (fun row => (row.branch, row.campus))) ∧
    ∀ k, k ∈ (gate_cutoff [exRow1, exRow2, exRow3]).map
        (fun row => (row.branch, row.campus)) ↔
      k ∈ ([exRow1, exRow2, exRow3] : List Record).map recKey :=
  ⟨by simp,
   (C7_gate_cutoff_spec [exRow1, exRow2, exRow3] (by simp)).1,
   (C7_gate_cutoff_spec [exRow1, exRow2, exRow3] (by simp)).2.2.1⟩

/-! ### Claim C8: empty filtered subset -/

/-- C8: when the filtered subset is empty the GATE tab renders the
informational no-data message and not the charts, and every aggregate of
the empty subset is the empty collection. -/
theorem C8_empty_subset_no_data (gateDf : List Record) (cfg : FilterConfig)
    (h : apply_filters cfg gateDf = []) :
    tab_gate gateDf cfg = TabView.noData "No GATE admissions match the current filters." ∧
    gate_cutoff (apply_filters cfg gateDf) = [] ∧
    branchMeanTable (fun r => r.gateScore) (apply_filters cfg gateDf) = [] ∧
    campusBranchCounts (apply_filters cfg gateDf) = [] ∧
    branchCounts (apply_filters cfg gateDf) = [] ∧
    ∀ m c bm cb bc, tab_gate gateDf cfg ≠ TabView.charts m c bm cb bc := by
  refine ⟨?_, ?_, ?_, ?_, ?_, ?_⟩
  · simp [tab_gate, h]
  · rw [h]
    rfl
  · rw [h]
    rfl
  · rw [h]
    rfl
  · rw [h]
    rfl
  · intro m c bm cb bc
    simp [tab_gate, h]

/-- Witness for C8 at a concrete empty-selection configuration. -/
theorem C8_witness :
    apply_filters exCfgEmpty [exGateRec] = [] ∧
    tab_gate [exGateRec] exCfgEmpty =
      TabView.noData "No GATE admissions match the current filters." :=
  ⟨by rfl, (C8_empty_subset_no_data [exGateRec] exCfgEmpty (by rfl)).1⟩
